import Mathlib

/-!
Shallow embedding of the `control` repository's filter and PID packages
(`filter/linearregression.go`, the sized stack, `lowpass.go`, `kalman.go`,
and `pid/pid.go`).  Go `float64` values are modelled as rationals; the
Go NaN sentinels (`stabilityThreshold`, `integralSumMax`) and the default
infinite output limits are modelled as `Option ℚ` (`none` = sentinel).
Stateful Go methods become functions returning the result together with
the updated state.
-/

namespace Control

/-! ### filter/linearregression.go -/

/-- State of `LinearRegression` (filter/linearregression.go). -/
structure LinearRegression where
  data : List ℚ
  slope : ℚ
  intercept : ℚ
  hasRun : Bool
deriving DecidableEq

/-- `NewLinearRegression` allocates a zero-filled slice of the same length as
`data` (`make([]float64, len(data))`) and does not copy the elements. -/
def NewLinearRegression (data : List ℚ) : LinearRegression :=
  { data := List.replicate data.length 0
    slope := 0
    intercept := 0
    hasRun := false }

/-- The four running sums computed by the loop in `RunLeastSquares`:
`(sumX, sumY, sumXY, sumXX)` over pairs `(i, y)` of index and value. -/
def regressionSums (data : List ℚ) : ℚ × ℚ × ℚ × ℚ :=
  data.enum.foldl
    (fun acc iy =>
      let x : ℚ := iy.1
      let y : ℚ := iy.2
      (acc.1 + x, acc.2.1 + y, acc.2.2.1 + x * y, acc.2.2.2 + x * x))
    (0, 0, 0, 0)

/-- `LinearRegression.RunLeastSquares` (mutates `slope`, `intercept`, `hasRun`). -/
def LinearRegression.RunLeastSquares (lr : LinearRegression) : LinearRegression :=
  let n := lr.data.length
  if n < 2 then
    { lr with slope := 0, intercept := 0, hasRun := true }
  else
    let s := regressionSums lr.data
    let sumX := s.1
    let sumY := s.2.1
    let sumXY := s.2.2.1
    let sumXX := s.2.2.2
    let nf : ℚ := n
    let denominator := nf * sumXX - sumX * sumX
    if |denominator| < 1 / 10 ^ 10 then
      let lr := { lr with slope := 0 }
      let lr :=
        if n > 0 then { lr with intercept := sumY / nf } else { lr with intercept := 0 }
      { lr with hasRun := true }
    else
      let slope := (nf * sumXY - sumX * sumY) / denominator
      { lr with slope := slope, intercept := (sumY - slope * sumX) / nf, hasRun := true }

/-- `LinearRegression.PredictNextValue`; runs the fit lazily if it has not run,
so it returns the predicted value together with the (possibly updated) state. -/
def LinearRegression.PredictNextValue (lr : LinearRegression) : ℚ × LinearRegression :=
  let lr := if !lr.hasRun then lr.RunLeastSquares else lr
  if lr.data.length = 1 then (lr.data.headI, lr)
  else (lr.slope * (lr.data.length : ℚ) + lr.intercept, lr)

/-- `LinearRegression.UpdateData` copies the slice and clears `hasRun`. -/
def LinearRegression.UpdateData (lr : LinearRegression) (data : List ℚ) : LinearRegression :=
  { lr with data := data, hasRun := false }

/-- The mean of a data slice, as the specification's words use it
("intercept = mean(data)"); for comparison with the code's behaviour only. -/
def specMean (d : List ℚ) : ℚ :=
  d.sum / d.length

/-! ### The sized stack (`SizedStack[float64]`) -/

/-- `SizedStack[float64]`: a fixed-capacity stack holding the most recent
elements, oldest first. -/
structure SizedStack where
  capacity : ℕ
  data : List ℚ
deriving DecidableEq

/-- `SizedStack.Push`: append while under capacity; once full, shift left
(drop the oldest element) and place the new value at the end. -/
def SizedStack.Push (s : SizedStack) (value : ℚ) : SizedStack :=
  if s.data.length < s.capacity then { s with data := s.data ++ [value] }
  else { s with data := s.data.tail ++ [value] }

/-- `SizedStack.Peek`: most recent element, or zero if empty. -/
def SizedStack.Peek (s : SizedStack) : ℚ :=
  s.data.getLastD 0

/-- `SizedStack.ToArray`: snapshot of the contents, oldest to newest. -/
def SizedStack.ToArray (s : SizedStack) : List ℚ :=
  s.data

/-- The `NewFloat64Stack(n)` + "push `0.0` n times" initialization used by
`NewKalmanFilter` and `KalmanFilter.Reset`. -/
def zeroStack (n : ℕ) : SizedStack :=
  (List.range n).foldl (fun s _ => s.Push 0) { capacity := n, data := [] }

/-! ### filter/kalman.go -/

/-- `KalmanFilter` state (kalman.go). `n` is the Go `int` stack size. -/
structure KalmanFilter where
  q : ℚ
  r : ℚ
  n : ℤ
  p : ℚ
  k : ℚ
  x : ℚ
  estimates : SizedStack
  regression : LinearRegression
deriving DecidableEq

/-- One iteration of `solveDARE`: `p += q; k = p/(p+r); p = (1-k)*p`. -/
def KalmanFilter.solveDARE (kf : KalmanFilter) : KalmanFilter :=
  let p1 := kf.p + kf.q
  let k1 := p1 / (p1 + kf.r)
  { kf with p := (1 - k1) * p1, k := k1 }

/-- `findK`: 2000 iterations of `solveDARE`. -/
def KalmanFilter.findK (kf : KalmanFilter) : KalmanFilter :=
  KalmanFilter.solveDARE^[2000] kf

/-- `NewKalmanFilter(q, r, n)`: validates `n > 0`, `q ≥ 0`, `r ≥ 0`, builds the
zero-filled stack and regression, then converges the gain via `findK`. -/
def NewKalmanFilter (q r : ℚ) (n : ℤ) : Option KalmanFilter :=
  if n ≤ 0 then none
  else if q < 0 ∨ r < 0 then none
  else
    let estimates := zeroStack n.toNat
    let kf : KalmanFilter :=
      { q := q, r := r, n := n, p := 1, k := 0, x := 0
        estimates := estimates
        regression := NewLinearRegression estimates.ToArray }
    some kf.findK

/-- `KalmanFilter.Estimate`: regression-based prediction blended with the
measurement through the precomputed steady gain. -/
def KalmanFilter.Estimate (kf : KalmanFilter) (measurement : ℚ) : ℚ × KalmanFilter :=
  let reg := kf.regression.RunLeastSquares
  let pr := reg.PredictNextValue
  let x := kf.x + (pr.1 - kf.estimates.Peek)
  let x := x + kf.k * (measurement - x)
  let estimates := kf.estimates.Push x
  let reg := pr.2.UpdateData estimates.ToArray
  (x, { kf with x := x, estimates := estimates, regression := reg })

/-- `KalmanFilter.Reset`: zero the state estimate, reinitialize the stack and
regression; in the Go code `p` and `k` are saved before the reinitialization
and restored after it, so their net effect is "unchanged". -/
def KalmanFilter.Reset (kf : KalmanFilter) : KalmanFilter :=
  let estimates := zeroStack kf.n.toNat
  { kf with x := 0
            estimates := estimates
            regression := NewLinearRegression estimates.ToArray }

/-! ### filter/lowpass.go -/

/-- `LowPassFilter` state (lowpass.go). -/
structure LowPassFilter where
  gain : ℚ
  previousEstimate : ℚ
  initialized : Bool
deriving DecidableEq

/-- `NewLowPassFilter(gain)`: fails unless `0 < gain < 1`. -/
def NewLowPassFilter (gain : ℚ) : Option LowPassFilter :=
  if gain ≤ 0 ∨ 1 ≤ gain then none
  else some { gain := gain, previousEstimate := 0, initialized := false }

/-- `LowPassFilter.Estimate`: first call returns the measurement and marks the
filter initialized; later calls apply `gain*previous + (1-gain)*measurement`. -/
def LowPassFilter.Estimate (lpf : LowPassFilter) (measurement : ℚ) : ℚ × LowPassFilter :=
  if !lpf.initialized then
    (measurement, { lpf with previousEstimate := measurement, initialized := true })
  else
    let estimate := lpf.gain * lpf.previousEstimate + (1 - lpf.gain) * measurement
    (estimate, { lpf with previousEstimate := estimate })

/-- `LowPassFilter.Reset`. -/
def LowPassFilter.Reset (lpf : LowPassFilter) : LowPassFilter :=
  { lpf with previousEstimate := 0, initialized := false }

/-! ### pid/pid.go

The Go `filter.Filter` interface is modelled by a state type `σ` together
with a record of the interface's methods (`FilterM`); the PID controller
stores the attached implementation and its current state separately, and
every call threads the state explicitly.  `prevTime`/`time.Now()` are
modelled by passing the elapsed seconds `dt` to `Calculate` directly. -/

/-- The `filter.Filter` interface over a filter-state type `σ`. -/
structure FilterM (σ : Type) where
  Estimate : σ → ℚ → ℚ × σ
  Reset : σ → σ
  GetGain : σ → ℚ

/-- The `PID` struct (pid.go).  `stabilityThreshold` and `integralSumMax` use
`none` for the Go NaN "disabled" sentinel; `outputMin`/`outputMax` use `none`
for the default `-Inf`/`+Inf`. -/
structure PID (σ : Type) where
  kp : ℚ
  ki : ℚ
  kd : ℚ
  feedForward : ℚ
  integralResetOnZeroCross : Bool
  stabilityThreshold : Option ℚ
  integralSumMax : Option ℚ
  outputMin : Option ℚ
  outputMax : Option ℚ
  filter : Option (FilterM σ)
  filterState : σ
  integral : ℚ
  lastReference : ℚ
  lastError : ℚ
  initialized : Bool

/-- The construction options accepted by `New` (the `With...` functions).
`WithDampening` is not included: it only assigns `p.kd` (to a value involving
`math.Sqrt`/`math.Log`), and any state it can produce is also produced by a
subsequent `SetGains` call, which the reachability relation below covers. -/
inductive POpt (σ : Type) where
  | withFeedForward (feedForward : ℚ)
  | withIntegralResetOnZeroCross
  | withStabilityThreshold (threshold : ℚ)
  | withIntegralSumMax (maxSum : ℚ)
  | withFilter (f : FilterM σ) (s : σ)
  | withOutputLimits (mn mx : ℚ)

/-- Application of a single option to the controller under construction. -/
def applyOpt {σ : Type} (p : PID σ) : POpt σ → PID σ
  | .withFeedForward v => { p with feedForward := v }
  | .withIntegralResetOnZeroCross => { p with integralResetOnZeroCross := true }
  | .withStabilityThreshold t => { p with stabilityThreshold := some |t| }
  | .withIntegralSumMax m => { p with integralSumMax := some |m| }
  | .withFilter f s => { p with filter := some f, filterState := s }
  | .withOutputLimits mn mx =>
      if mn ≤ mx then { p with outputMin := some mn, outputMax := some mx } else p

/-- `New(kp, ki, kd, opts...)`: defaults, then the options in order. -/
def PID.New {σ : Type} [Inhabited σ] (kp ki kd : ℚ) (opts : List (POpt σ)) : PID σ :=
  opts.foldl applyOpt
    { kp := kp, ki := ki, kd := kd
      feedForward := 0
      integralResetOnZeroCross := false
      stabilityThreshold := none
      integralSumMax := none
      outputMin := none
      outputMax := none
      filter := none
      filterState := default
      integral := 0
      lastReference := 0
      lastError := 0
      initialized := false }

/-- `clamp`: restrict a value to the output limits (a `none` bound, the Go
`±Inf` default, never clips). -/
def PID.clamp {σ : Type} (p : PID σ) (value : ℚ) : ℚ :=
  match p.outputMax, p.outputMin with
  | some mx, some mn => if value > mx then mx else if value < mn then mn else value
  | some mx, none => if value > mx then mx else value
  | none, some mn => if value < mn then mn else value
  | none, none => value

/-- `calculateRawDerivative`: `0` when `dt <= 0`; otherwise the (optionally
filtered) error change divided by `dt`.  Returns the new filter state as well,
since `filter.Estimate` mutates the attached filter. -/
def PID.calculateRawDerivative {σ : Type} (p : PID σ) (error dt : ℚ) : ℚ × σ :=
  if dt ≤ 0 then (0, p.filterState)
  else
    let errorChange := error - p.lastError
    match p.filter with
    | some f =>
        let es := f.Estimate p.filterState errorChange
        (es.1 / dt, es.2)
    | none => (errorChange / dt, p.filterState)

/-- `calcualteDerrivative` (the Go function's spelling): `kd` times the raw
derivative, with the updated filter state. -/
def PID.calcualteDerrivative {σ : Type} (p : PID σ) (error dt : ℚ) : ℚ × σ :=
  let rd := p.calculateRawDerivative error dt
  (p.kd * rd.1, rd.2)

/-- The stability gate of `calculateIntegral`: passes when the threshold is
the NaN sentinel (`none`) or the raw derivative is within the threshold. -/
def stabilityGate (threshold : Option ℚ) (rawDerivative : ℚ) : Bool :=
  match threshold with
  | none => true
  | some t => decide (|rawDerivative| ≤ t)

/-- `calculateIntegral`: zero-cross reset, stability-gated accumulation with
the optional cap, then the `ki`-weighted term.  Returns the term and the
updated controller (integral and filter state). -/
def PID.calculateIntegral {σ : Type} (p : PID σ) (error dt : ℚ) : ℚ × PID σ :=
  let p :=
    if p.integralResetOnZeroCross ∧
        ((p.lastError > 0 ∧ error < 0) ∨ (p.lastError < 0 ∧ error > 0)) then
      { p with integral := 0 }
    else p
  let rd := p.calculateRawDerivative error dt
  let p := { p with filterState := rd.2 }
  let p :=
    if stabilityGate p.stabilityThreshold rd.1 then
      let p := { p with integral := p.integral + error * dt }
      match p.integralSumMax with
      | some m =>
          if p.integral > m then { p with integral := m }
          else if p.integral < -m then { p with integral := -m }
          else p
      | none => p
    else p
  (p.ki * p.integral, p)

/-- The "Initialize on first call" block of `Calculate`. -/
def PID.initStep {σ : Type} (p : PID σ) (reference error : ℚ) : PID σ :=
  if p.initialized then p
  else
    { p with integral := 0, lastReference := reference, lastError := error,
             initialized := true }

/-- The "Reset integral on setpoint change" block of `Calculate`. -/
def PID.setpointStep {σ : Type} (p : PID σ) (reference : ℚ) : PID σ :=
  if reference ≠ p.lastReference then
    { p with integral := 0, lastReference := reference }
  else p

/-- The "Anti-windup: adjust integral if output is clamped" block of
`Calculate`. -/
def PID.antiWindupStep {σ : Type} (p : PID σ)
    (proportional derivative output clampedOutput : ℚ) : PID σ :=
  if output ≠ clampedOutput ∧ p.ki ≠ 0 then
    { p with integral := (clampedOutput - proportional - derivative - p.feedForward) / p.ki }
  else p

/-- The body of `Calculate`, additionally exposing the unclamped `output`
local: returns `(output, clampedOutput, final state)`.  `Calculate` itself
projects away the first component. -/
def PID.CalculateWithTrace {σ : Type} (p : PID σ) (reference state dt : ℚ) :
    ℚ × ℚ × PID σ :=
  let error := reference - state
  let p := p.initStep reference error
  let p := p.setpointStep reference
  let proportional := p.kp * error
  let dres := p.calcualteDerrivative error dt
  let derivative := dres.1
  let p := { p with filterState := dres.2 }
  let ires := p.calculateIntegral error dt
  let integral := ires.1
  let p := ires.2
  let output := proportional + integral + derivative + p.feedForward
  let clampedOutput := p.clamp output
  let p := p.antiWindupStep proportional derivative output clampedOutput
  let p := { p with lastError := error }
  (output, clampedOutput, p)

/-- "The anti-windup back-solve fires during this call": the unclamped output
differs from the clamped one and `ki ≠ 0`, so `Calculate` rewrites the stored
integral. -/
def PID.antiWindupFires {σ : Type} (p : PID σ) (reference state dt : ℚ) : Prop :=
  (p.CalculateWithTrace reference state dt).1 ≠
    (p.CalculateWithTrace reference state dt).2.1 ∧ p.ki ≠ 0

/-- `Calculate(reference, state)`: the clamped output and the new controller
state; the elapsed time `dt` is an explicit argument (`now - prevTime`). -/
def PID.Calculate {σ : Type} (p : PID σ) (reference state dt : ℚ) : ℚ × PID σ :=
  ((p.CalculateWithTrace reference state dt).2.1,
   (p.CalculateWithTrace reference state dt).2.2)

/-- `Reset`: clear the transient state and reset the attached filter. -/
def PID.Reset {σ : Type} (p : PID σ) : PID σ :=
  let p := { p with integral := 0, initialized := false, lastError := 0 }
  match p.filter with
  | some f => { p with filterState := f.Reset p.filterState }
  | none => p

/-- `SetGains`. -/
def PID.SetGains {σ : Type} (p : PID σ) (kp ki kd : ℚ) : PID σ :=
  { p with kp := kp, ki := ki, kd := kd }

/-- `SetFeedForward`. -/
def PID.SetFeedForward {σ : Type} (p : PID σ) (feedForward : ℚ) : PID σ :=
  { p with feedForward := feedForward }

/-- `SetIntegralResetOnZeroCross`. -/
def PID.SetIntegralResetOnZeroCross {σ : Type} (p : PID σ) (enabled : Bool) : PID σ :=
  { p with integralResetOnZeroCross := enabled }

/-- `SetStabilityThreshold` (stores the absolute value). -/
def PID.SetStabilityThreshold {σ : Type} (p : PID σ) (threshold : ℚ) : PID σ :=
  { p with stabilityThreshold := some |threshold| }

/-- `SetIntegralSumMax` (stores the absolute value). -/
def PID.SetIntegralSumMax {σ : Type} (p : PID σ) (maxSum : ℚ) : PID σ :=
  { p with integralSumMax := some |maxSum| }

/-- `SetFilter` (the Go argument is an interface value, possibly nil). -/
def PID.SetFilter {σ : Type} (p : PID σ) (f : Option (FilterM σ)) (s : σ) : PID σ :=
  { p with filter := f, filterState := s }

/-- `SetOutputLimits`: no-op when `min > max`; otherwise set the limits and
re-clamp the stored integral with the new bounds. -/
def PID.SetOutputLimits {σ : Type} (p : PID σ) (mn mx : ℚ) : PID σ :=
  if mn > mx then p
  else
    let p := { p with outputMin := some mn, outputMax := some mx }
    { p with integral := p.clamp p.integral }

/-- The states of a `PID` controller reachable through its public API:
construction with options, `Calculate` ticks, and the exported setters. -/
inductive Reachable {σ : Type} [Inhabited σ] : PID σ → Prop
  | new (kp ki kd : ℚ) (opts : List (POpt σ)) : Reachable (PID.New kp ki kd opts)
  | calculateStep (p : PID σ) (reference state dt : ℚ) :
      Reachable p → Reachable (p.Calculate reference state dt).2
  | resetStep (p : PID σ) : Reachable p → Reachable p.Reset
  | setGains (p : PID σ) (kp ki kd : ℚ) : Reachable p → Reachable (p.SetGains kp ki kd)
  | setFeedForward (p : PID σ) (v : ℚ) : Reachable p → Reachable (p.SetFeedForward v)
  | setIntegralResetOnZeroCross (p : PID σ) (b : Bool) :
      Reachable p → Reachable (p.SetIntegralResetOnZeroCross b)
  | setStabilityThreshold (p : PID σ) (t : ℚ) :
      Reachable p → Reachable (p.SetStabilityThreshold t)
  | setIntegralSumMax (p : PID σ) (m : ℚ) :
      Reachable p → Reachable (p.SetIntegralSumMax m)
  | setFilter (p : PID σ) (f : Option (FilterM σ)) (s : σ) :
      Reachable p → Reachable (p.SetFilter f s)
  | setOutputLimits (p : PID σ) (mn mx : ℚ) :
      Reachable p → Reachable (p.SetOutputLimits mn mx)

/-- The `output_min <= output_max` invariant, with `none` standing for the
infinite default bounds. -/
def limitsOrdered {σ : Type} (p : PID σ) : Prop :=
  ∀ mn ∈ p.outputMin, ∀ mx ∈ p.outputMax, mn ≤ mx

/-- `v` lies within `[output_min, output_max]` (an infinite bound never
constrains). -/
def withinLimits {σ : Type} (p : PID σ) (v : ℚ) : Prop :=
  (∀ mn ∈ p.outputMin, mn ≤ v) ∧ (∀ mx ∈ p.outputMax, v ≤ mx)

/-- A filter whose state counts how many times `Estimate` has been invoked
(and returns the measurement unchanged); an admissible implementation of the
Go `filter.Filter` interface used to observe invocation counts. -/
def countingFilter : FilterM ℕ :=
  { Estimate := fun s m => (m, s + 1)
    Reset := fun _ => 0
    GetGain := fun _ => 0 }

/-! ### Concrete instances used by the counterexamples and witnesses -/

/-- A pure-integral controller (`kp = 0`, `ki = 1`, `kd = 0`), no options. -/
def pC1 : PID Unit := PID.New 0 1 0 []

/-- `pC1` after an initializing tick and one `dt = 1` tick with error `1`
(so its stored integral is `1`). -/
def pC1b : PID Unit := ((pC1.Calculate 1 0 0).2.Calculate 1 0 1).2

/-- A controller with an integral cap of `1`, output limits `[-10, 10]` and a
feed-forward of `20`, which forces the anti-windup back-solve on the first
tick. -/
def pC2 : PID Unit :=
  PID.New 0 1 0
    [POpt.withOutputLimits (-10) 10, POpt.withIntegralSumMax 1, POpt.withFeedForward 20]

/-- A controller carrying the invocation-counting filter. -/
def pC3 : PID ℕ := PID.New 1 0 0 [POpt.withFilter countingFilter 0]

/-- `pC3` after its initializing tick (the `dt = 0` short-circuit means the
filter has not been invoked yet: its counter state is still `0`). -/
def pC3b : PID ℕ := (pC3.Calculate 1 0 0).2

/-- An initialized controller state with a nonzero stored integral, used to
instantiate the corrected `dt = 0` behaviour. -/
def pW1 : PID Unit :=
  { kp := 0, ki := 1, kd := 0, feedForward := 0
    integralResetOnZeroCross := false
    stabilityThreshold := none
    integralSumMax := some 1
    outputMin := none, outputMax := none
    filter := none, filterState := ()
    integral := 1/2, lastReference := 1, lastError := 1, initialized := true }

/-- An initialized controller state carrying the counting filter. -/
def pW3 : PID ℕ :=
  { kp := 1, ki := 0, kd := 1, feedForward := 0
    integralResetOnZeroCross := false
    stabilityThreshold := none
    integralSumMax := none
    outputMin := none, outputMax := none
    filter := some countingFilter, filterState := 0
    integral := 0, lastReference := 1, lastError := 1, initialized := true }

/-- A controller with output limits `[-1, 1]`, constructed through `New`. -/
def pW4 : PID Unit := PID.New 2 0 0 [POpt.withOutputLimits (-1) 1]

/-- A low-pass filter in its fresh (uninitialized) state. -/
def lpfW : LowPassFilter := { gain := 9/10, previousEstimate := 0, initialized := false }

/-- A low-pass filter in an initialized state. -/
def lpfW2 : LowPassFilter := { gain := 9/10, previousEstimate := 2, initialized := true }

/-- The regression state holding the single data point `7`. -/
def lrW : LinearRegression := (NewLinearRegression [7]).UpdateData [7]

/-- The Kalman filter state built by `NewKalmanFilter(1, 0, 1)` before the
`findK` convergence loop runs. -/
def kfC8 : KalmanFilter :=
  { q := 1, r := 0, n := 1, p := 1, k := 0, x := 0
    estimates := { capacity := 1, data := [0] }
    regression := { data := [0], slope := 0, intercept := 0, hasRun := false } }

/-- The fixed point the Riccati iteration reaches for `q = 1, r = 0`:
`p = 0`, `k = 1`. -/
def kfC8fix : KalmanFilter := { kfC8 with p := 0, k := 1 }

/-- The controller state `pC1` reaches after its initializing tick. -/
def pL0 : PID Unit :=
  { kp := 0, ki := 1, kd := 0, feedForward := 0
    integralResetOnZeroCross := false
    stabilityThreshold := none
    integralSumMax := none
    outputMin := none, outputMax := none
    filter := none, filterState := ()
    integral := 0, lastReference := 1, lastError := 1, initialized := true }

/-- `pL0` after the `dt = 1` tick: the integral has accumulated to `1`. -/
def pL1 : PID Unit := { pL0 with integral := 1 }

/-- The configuration of `pC2` as a record literal. -/
def pL2 : PID Unit :=
  { kp := 0, ki := 1, kd := 0, feedForward := 20
    integralResetOnZeroCross := false
    stabilityThreshold := none
    integralSumMax := some 1
    outputMin := some (-10), outputMax := some 10
    filter := none, filterState := ()
    integral := 0, lastReference := 0, lastError := 0, initialized := false }

/-- The configuration of `pC3` as a record literal. -/
def p3L0 : PID ℕ :=
  { kp := 1, ki := 0, kd := 0, feedForward := 0
    integralResetOnZeroCross := false
    stabilityThreshold := none
    integralSumMax := none
    outputMin := none, outputMax := none
    filter := some countingFilter, filterState := 0
    integral := 0, lastReference := 0, lastError := 0, initialized := false }

/-- `p3L0` after its initializing tick (the filter has never run). -/
def p3L1 : PID ℕ := { p3L0 with lastReference := 1, lastError := 1, initialized := true }

/-! ## Theorems -/

/-- `Push` never changes the capacity. -/
theorem SizedStack.push_capacity (s : SizedStack) (v : ℚ) :
    (s.Push v).capacity = s.capacity := by
  unfold SizedStack.Push
  split <;> rfl

/-- Folding `Push 0` over `k` indices onto a stack with spare room appends
`k` zeros. -/
theorem pushZeros_data (k : ℕ) (s : SizedStack)
    (h : s.data.length + k ≤ s.capacity) :
    ((List.range k).foldl (fun s _ => s.Push 0) s).data = s.data ++ List.replicate k 0 := by
  induction k generalizing s with
  | zero => simp
  | succ k ih =>
      have hlt : s.data.length < s.capacity := by omega
      have hstep : (s.Push 0).data = s.data ++ [0] := by
        unfold SizedStack.Push
        rw [if_pos hlt]
      have hlen : (s.Push 0).data.length + k ≤ (s.Push 0).capacity := by
        rw [SizedStack.push_capacity, hstep]
        simp only [List.length_append, List.length_singleton]
        omega
      calc ((List.range (k + 1)).foldl (fun s _ => s.Push 0) s).data
          = ((List.range k).foldl (fun s _ => s.Push 0) (s.Push 0)).data := by
            rw [List.range_succ_eq_map]
            simp [List.foldl_map]
        _ = (s.Push 0).data ++ List.replicate k 0 := ih (s.Push 0) hlen
        _ = s.data ++ List.replicate (k + 1) 0 := by
            rw [hstep, List.replicate_succ]
            simp

/-- The zero-filled stack built by the construction/reset loops. -/
theorem zeroStack_data (n : ℕ) : (zeroStack n).data = List.replicate n 0 := by
  unfold zeroStack
  rw [pushZeros_data n { capacity := n, data := [] } (by simp)]
  simp

/-- C7: `AdaptiveFilter`/`KalmanFilter` `Reset` zeros the state estimate and
reinitializes the history to `n` zeros while leaving the precomputed gain `k`
and error covariance `p` exactly unchanged; `Estimate` never mutates `k` or
`p` either. -/
theorem C7_kalman_frame (kf : KalmanFilter) (m : ℚ) :
    kf.Reset.x = 0 ∧
    kf.Reset.estimates.data = List.replicate kf.n.toNat 0 ∧
    kf.Reset.k = kf.k ∧ kf.Reset.p = kf.p ∧
    (kf.Estimate m).2.k = kf.k ∧ (kf.Estimate m).2.p = kf.p := by
  refine ⟨rfl, ?_, rfl, rfl, rfl, rfl⟩
  show (zeroStack kf.n.toNat).data = List.replicate kf.n.toNat 0
  exact zeroStack_data kf.n.toNat

/-- C5: `SetOutputLimits(min, max)` with `min > max` is a complete no-op
(every field of the controller is unchanged); with `min <= max` it installs
the limits and immediately re-clamps the stored integral with the new
bounds. -/
theorem C5_setOutputLimits {σ : Type} (p : PID σ) (mn mx : ℚ) :
    (mn > mx → p.SetOutputLimits mn mx = p) ∧
    (mn ≤ mx → p.SetOutputLimits mn mx =
      { p with outputMin := some mn, outputMax := some mx,
               integral :=
                 PID.clamp { p with outputMin := some mn, outputMax := some mx }
                   p.integral }) := by
  constructor
  · intro h
    unfold PID.SetOutputLimits
    rw [if_pos h]
  · intro h
    unfold PID.SetOutputLimits
    rw [if_neg (not_lt.mpr h)]

/-- C5 witness: at the concrete state `pW1`, `SetOutputLimits 5 3` is a
no-op, and `SetOutputLimits 1 2` installs the limits and re-clamps the
stored integral. -/
theorem C5_witness :
    pW1.SetOutputLimits 5 3 = pW1 ∧
    pW1.SetOutputLimits 1 2 =
      { pW1 with outputMin := some 1, outputMax := some 2,
                 integral :=
                   PID.clamp { pW1 with outputMin := some 1, outputMax := some 2 }
                     pW1.integral } :=
  ⟨(C5_setOutputLimits pW1 5 3).1 (by norm_num),
   (C5_setOutputLimits pW1 1 2).2 (by norm_num)⟩

/-- C6: on an uninitialized (fresh or reset) low-pass filter, `Estimate x`
returns `x` and marks the filter initialized; on an initialized filter it
stores and returns `gain*previous + (1-gain)*measurement`; `Reset` returns
the filter to the uninitialized state; and with `gain = 0.9`,
`estimate(0)` then `estimate(10)` returns exactly `1`. -/
theorem C6_lowPassFilter :
    (∀ (f : LowPassFilter) (x : ℚ), f.initialized = false →
      f.Estimate x = (x, { f with previousEstimate := x, initialized := true })) ∧
    (∀ (f : LowPassFilter) (m : ℚ), f.initialized = true →
      f.Estimate m = (f.gain * f.previousEstimate + (1 - f.gain) * m,
        { f with previousEstimate := f.gain * f.previousEstimate + (1 - f.gain) * m })) ∧
    (∀ f : LowPassFilter, f.Reset.initialized = false ∧ f.Reset.previousEstimate = 0) ∧
    (NewLowPassFilter (9/10)).map (fun f => ((f.Estimate 0).2.Estimate 10).1) = some 1 := by
  refine ⟨?_, ?_, ?_, ?_⟩
  · intro f x h
    unfold LowPassFilter.Estimate
    rw [h]
    rfl
  · intro f m h
    unfold LowPassFilter.Estimate
    rw [h]
    rfl
  · intro f
    exact ⟨rfl, rfl⟩
  · have h : NewLowPassFilter (9/10) =
        some { gain := 9/10, previousEstimate := 0, initialized := false } := by
      unfold NewLowPassFilter
      rw [if_neg (by norm_num)]
    rw [h]
    simp only [Option.map_some']
    norm_num [LowPassFilter.Estimate]

/-- C6 witness: the first-call identity at `lpfW` with input `3`, and the
filtering formula at the initialized `lpfW2` with input `10`. -/
theorem C6_witness :
    lpfW.Estimate 3 = (3, { lpfW with previousEstimate := 3, initialized := true }) ∧
    lpfW2.Estimate 10 =
      (lpfW2.gain * lpfW2.previousEstimate + (1 - lpfW2.gain) * 10,
       { lpfW2 with previousEstimate :=
           lpfW2.gain * lpfW2.previousEstimate + (1 - lpfW2.gain) * 10 }) :=
  ⟨C6_lowPassFilter.1 lpfW 3 rfl, C6_lowPassFilter.2.1 lpfW2 10 rfl⟩

/-- C9 counterexample: on the single-point data slice `[5]`, the fit yields
`slope = 0` but `intercept = 0`, which is not the mean `5` the claim
asserts. -/
theorem C9_counterexample :
    ((NewLinearRegression [5]).UpdateData [5]).RunLeastSquares.slope = 0 ∧
    ((NewLinearRegression [5]).UpdateData [5]).RunLeastSquares.intercept = 0 ∧
    ((NewLinearRegression [5]).UpdateData [5]).RunLeastSquares.intercept ≠ specMean [5] := by
  refine ⟨rfl, rfl, ?_⟩
  have h5 : specMean [5] = 5 := by norm_num [specMean]
  rw [h5]
  decide

/-- C9 amended: with fewer than 2 points the fit yields `slope = 0` and
`intercept = 0` (not the mean); the one-step prediction is nonetheless flat
at the mean for a single point, through the dedicated single-point branch of
`PredictNextValue`. -/
theorem C9_amended (lr : LinearRegression) (h : lr.data.length < 2) :
    lr.RunLeastSquares.slope = 0 ∧ lr.RunLeastSquares.intercept = 0 ∧
    (lr.data.length = 1 → lr.RunLeastSquares.PredictNextValue.1 = specMean lr.data) := by
  have hrun : lr.RunLeastSquares =
      { lr with slope := 0, intercept := 0, hasRun := true } := by
    unfold LinearRegression.RunLeastSquares
    rw [if_pos h]
  refine ⟨by rw [hrun], by rw [hrun], ?_⟩
  intro h1
  rw [hrun]
  unfold LinearRegression.PredictNextValue
  simp only [Bool.not_true, Bool.false_eq_true, if_false]
  have h1' : ({ lr with slope := 0, intercept := 0, hasRun := true } :
      LinearRegression).data.length = 1 := h1
  rw [if_pos h1']
  obtain ⟨a, ha⟩ := List.length_eq_one.mp h1
  show lr.data.headI = specMean lr.data
  rw [ha]
  unfold specMean
  simp

/-- C9 witness: the amended statement evaluated on the single-point slice
`[7]`. -/
theorem C9_witness :
    lrW.RunLeastSquares.slope = 0 ∧ lrW.RunLeastSquares.intercept = 0 ∧
    lrW.RunLeastSquares.PredictNextValue.1 = specMean lrW.data :=
  ⟨(C9_amended lrW (by decide)).1, (C9_amended lrW (by decide)).2.1,
   (C9_amended lrW (by decide)).2.2 (by decide)⟩

/-- C10: `NewLinearRegression(d)` stores a zero-filled slice of `d`'s length
and never copies `d`'s elements, so until `UpdateData` is called the fit and
the prediction agree with those for all-zero data of the same length,
whatever `d` contains. -/
theorem C10_constructorZeroFill (d : List ℚ) :
    (NewLinearRegression d).data = List.replicate d.length 0 ∧
    NewLinearRegression d = NewLinearRegression (List.replicate d.length 0) ∧
    (NewLinearRegression d).RunLeastSquares =
      (NewLinearRegression (List.replicate d.length 0)).RunLeastSquares ∧
    (NewLinearRegression d).PredictNextValue.1 =
      (NewLinearRegression (List.replicate d.length 0)).PredictNextValue.1 := by
  have key : NewLinearRegression d = NewLinearRegression (List.replicate d.length 0) := by
    unfold NewLinearRegression
    rw [List.length_replicate]
  exact ⟨rfl, key, by rw [key], by rw [key]⟩

/-- One `solveDARE` iteration with `q ≥ 0`, `r > 0` keeps the covariance
positive and produces a gain in `[0, 1]` (in fact in `(0, 1)`). -/
theorem solveDARE_pos (kf : KalmanFilter) (hq : 0 ≤ kf.q) (hr : 0 < kf.r)
    (hp : 0 < kf.p) :
    0 < kf.solveDARE.p ∧ 0 ≤ kf.solveDARE.k ∧ kf.solveDARE.k ≤ 1 := by
  have hp1 : 0 < kf.p + kf.q := by linarith
  have hpr : 0 < kf.p + kf.q + kf.r := by linarith
  have hk0 : 0 < (kf.p + kf.q) / (kf.p + kf.q + kf.r) := div_pos hp1 hpr
  have hk1 : (kf.p + kf.q) / (kf.p + kf.q + kf.r) < 1 :=
    (div_lt_one hpr).mpr (by linarith)
  refine ⟨?_, le_of_lt hk0, le_of_lt hk1⟩
  show 0 < (1 - (kf.p + kf.q) / (kf.p + kf.q + kf.r)) * (kf.p + kf.q)
  have : 0 < 1 - (kf.p + kf.q) / (kf.p + kf.q + kf.r) := by linarith
  exact mul_pos this hp1

/-- `solveDARE` never changes `q` or `r`, and under `q ≥ 0`, `r > 0` its
iterates keep the covariance positive. -/
theorem dare_iterate_pos (j : ℕ) (kf : KalmanFilter) (hq : 0 ≤ kf.q)
    (hr : 0 < kf.r) (hp : 0 < kf.p) :
    0 < (KalmanFilter.solveDARE^[j] kf).p ∧
    (KalmanFilter.solveDARE^[j] kf).q = kf.q ∧
    (KalmanFilter.solveDARE^[j] kf).r = kf.r := by
  induction j generalizing kf with
  | zero => exact ⟨hp, rfl, rfl⟩
  | succ j ih =>
      rw [Function.iterate_succ_apply]
      have hstep := solveDARE_pos kf hq hr hp
      exact ih kf.solveDARE hq hr hstep.1

/-- C8 amended: for every construction with `q ≥ 0`, `r > 0` (and any `n`),
the 2000-iteration Riccati recursion started from `p = 1, k = 0` yields a
steady gain in `[0, 1]` and a strictly positive error covariance.  (The
claim's weaker premise `r ≥ 0` fails: see the counterexample.) -/
theorem C8_amended (q r : ℚ) (n : ℤ) (hq : 0 ≤ q) (hr : 0 < r) :
    ∀ kf ∈ NewKalmanFilter q r n, (0 ≤ kf.k ∧ kf.k ≤ 1) ∧ 0 < kf.p := by
  intro kf hkf
  unfold NewKalmanFilter at hkf
  split at hkf
  · exact absurd hkf (by simp)
  split at hkf
  · exact absurd hkf (by simp)
  rw [Option.mem_def, Option.some_inj] at hkf
  subst hkf
  unfold KalmanFilter.findK
  rw [show (2000 : ℕ) = 1999 + 1 from rfl, Function.iterate_succ_apply']
  have hit := dare_iterate_pos 1999
    { q := q, r := r, n := n, p := 1, k := 0, x := 0
      estimates := zeroStack n.toNat
      regression := NewLinearRegression (zeroStack n.toNat).ToArray }
    hq hr (by norm_num)
  have := solveDARE_pos _ (by rw [hit.2.1]; exact hq) (by rw [hit.2.2]; exact hr) hit.1
  exact ⟨⟨this.2.1, this.2.2⟩, this.1⟩

/-- C8 witness: the amended statement at the concrete valid construction
`q = 0`, `r = 1`, `n = 1`. -/
theorem C8_witness :
    (0:ℚ) ≤ 0 ∧ (0:ℚ) < 1 ∧
    ∀ kf ∈ NewKalmanFilter 0 1 1, (0 ≤ kf.k ∧ kf.k ≤ 1) ∧ 0 < kf.p :=
  ⟨le_refl 0, by norm_num, C8_amended 0 1 1 (le_refl 0) (by norm_num)⟩

/-- C8 counterexample: `NewKalmanFilter(1, 0, 1)` is accepted by the
validation (`q ≥ 0`, `r ≥ 0`, `n ≥ 1`) yet converges to an error covariance
of exactly `0`, refuting `error_covariance > 0`. -/
theorem C8_counterexample :
    (NewKalmanFilter 1 0 1).map KalmanFilter.p = some 0 ∧ ¬ (0:ℚ) > 0 := by
  have h1 : kfC8.solveDARE = kfC8fix := by
    norm_num [KalmanFilter.solveDARE, kfC8, kfC8fix]
  have h2 : kfC8fix.solveDARE = kfC8fix := by
    norm_num [KalmanFilter.solveDARE, kfC8, kfC8fix]
  have h3 : kfC8.findK = kfC8fix := by
    unfold KalmanFilter.findK
    rw [show (2000 : ℕ) = 1999 + 1 from rfl, Function.iterate_succ_apply, h1,
      Function.iterate_fixed h2]
  have h4 : NewKalmanFilter 1 0 1 = some kfC8.findK := by
    unfold NewKalmanFilter
    rw [if_neg (by norm_num), if_neg (by norm_num)]
    rfl
  rw [h4, h3]
  exact ⟨rfl, by norm_num⟩

/-- An already-initialized controller is unchanged by the first-call block. -/
theorem initStep_initialized {σ : Type} (p : PID σ) (reference error : ℚ)
    (h : p.initialized = true) : p.initStep reference error = p := by
  unfold PID.initStep
  rw [h]
  rfl

/-- An unchanged setpoint does not trigger the integral reset. -/
theorem setpointStep_same {σ : Type} (p : PID σ) (reference : ℚ)
    (h : reference = p.lastReference) : p.setpointStep reference = p := by
  unfold PID.setpointStep
  rw [if_neg]
  simp [h]

/-- `dt ≤ 0` short-circuits the raw derivative (and skips the filter). -/
theorem calculateRawDerivative_nonpos {σ : Type} (p : PID σ) (error dt : ℚ)
    (h : dt ≤ 0) : p.calculateRawDerivative error dt = (0, p.filterState) := by
  unfold PID.calculateRawDerivative
  rw [if_pos h]

/-- `dt ≤ 0` makes the derivative term `kd * 0`. -/
theorem calcualteDerrivative_nonpos {σ : Type} (p : PID σ) (error dt : ℚ)
    (h : dt ≤ 0) : p.calcualteDerrivative error dt = (p.kd * 0, p.filterState) := by
  unfold PID.calcualteDerrivative
  rw [calculateRawDerivative_nonpos p error dt h]

/-- The anti-windup block leaves the state alone when the output was not
clipped or `ki = 0`. -/
theorem antiWindupStep_noop {σ : Type} (p : PID σ) (pr d out cl : ℚ)
    (h : out = cl ∨ p.ki = 0) : p.antiWindupStep pr d out cl = p := by
  unfold PID.antiWindupStep
  rw [if_neg]
  rcases h with h | h
  · exact fun hc => hc.1 h
  · exact fun hc => hc.2 h

/-- With `dt = 0`, no zero-cross trigger, and a stored integral already within
the cap, `calculateIntegral` returns the `ki`-weighted stored integral and
leaves the whole controller state unchanged. -/
theorem calculateIntegral_dt_zero {σ : Type} (p : PID σ) (error : ℚ)
    (hzc : ¬ (p.integralResetOnZeroCross ∧
      ((p.lastError > 0 ∧ error < 0) ∨ (p.lastError < 0 ∧ error > 0))))
    (hcap : ∀ m ∈ p.integralSumMax, |p.integral| ≤ m) :
    p.calculateIntegral error 0 = (p.ki * p.integral, p) := by
  obtain ⟨kp, ki, kd, ff, zc, st, ismax, omin, omax, filt, fs, intg, lref, lerr, init⟩ := p
  simp only at hzc hcap
  unfold PID.calculateIntegral PID.calculateRawDerivative
  rw [if_neg hzc]
  simp only [if_pos (le_refl (0:ℚ)), mul_zero, add_zero]
  rcases ismax with _ | m
  · rcases st with _ | t
    · rfl
    · simp only [stabilityGate]
      split <;> rfl
  · have hm := hcap m rfl
    have h1 : ¬ intg > m := not_lt.mpr (abs_le.mp hm).2
    have h2 : ¬ intg < -m := not_lt.mpr (abs_le.mp hm).1
    rcases st with _ | t
    · simp only [stabilityGate, if_true]
      rw [if_neg h1, if_neg h2]
    · simp only [stabilityGate]
      split <;> rfl

/-- C1 amended: with `dt = 0` (the only realizable case of `dt ≤ 0`, since the
elapsed time is non-negative), after initialization and with the setpoint
unchanged (`reference = last_reference`), the derivative contribution is
`kd * 0 = 0` and the accumulation step adds `error * 0 = 0`; provided
additionally that the zero-cross reset does not trigger, the stored integral
is within the cap, and the anti-windup back-solve does not fire, the stored
integral is unchanged and the returned value is
`clamp(kp*error + ki*integral + feed_forward)` — the integral term is still
part of the output, unlike the claim's `clamp(kp*error + feed_forward)`;
a setpoint change, the zero-cross reset, the cap re-clamp, and the
anti-windup back-solve each remain able to change the stored integral even
when `dt = 0`. -/
theorem C1_amended {σ : Type} (p : PID σ) (reference state : ℚ)
    (hin : p.initialized = true)
    (href : reference = p.lastReference)
    (hzc : ¬ (p.integralResetOnZeroCross ∧
      ((p.lastError > 0 ∧ reference - state < 0) ∨
        (p.lastError < 0 ∧ reference - state > 0))))
    (hcap : ∀ m ∈ p.integralSumMax, |p.integral| ≤ m)
    (hnaw : ¬ p.antiWindupFires reference state 0) :
    (p.Calculate reference state 0).1 =
      p.clamp (p.kp * (reference - state) + p.ki * p.integral + p.feedForward) ∧
    (p.Calculate reference state 0).2.integral = p.integral := by
  have hstep : p.CalculateWithTrace reference state 0 =
      (p.kp * (reference - state) + p.ki * p.integral + p.kd * 0 + p.feedForward,
       p.clamp (p.kp * (reference - state) + p.ki * p.integral + p.kd * 0 + p.feedForward),
       { p.antiWindupStep (p.kp * (reference - state)) (p.kd * 0)
           (p.kp * (reference - state) + p.ki * p.integral + p.kd * 0 + p.feedForward)
           (p.clamp (p.kp * (reference - state) + p.ki * p.integral + p.kd * 0 + p.feedForward))
         with lastError := reference - state }) := by
    unfold PID.CalculateWithTrace
    simp only [initStep_initialized p reference (reference - state) hin,
      setpointStep_same p reference href,
      calcualteDerrivative_nonpos p (reference - state) 0 le_rfl,
      calculateIntegral_dt_zero p (reference - state) hzc hcap]
  have hnaw' : p.kp * (reference - state) + p.ki * p.integral + p.kd * 0 + p.feedForward =
      p.clamp (p.kp * (reference - state) + p.ki * p.integral + p.kd * 0 + p.feedForward) ∨
      p.ki = 0 := by
    unfold PID.antiWindupFires at hnaw
    rw [hstep] at hnaw
    rcases not_and_or.mp hnaw with h | h
    · exact Or.inl (not_not.mp h)
    · exact Or.inr (not_not.mp h)
  have hawp := antiWindupStep_noop p (p.kp * (reference - state)) (p.kd * 0)
    (p.kp * (reference - state) + p.ki * p.integral + p.kd * 0 + p.feedForward)
    (p.clamp (p.kp * (reference - state) + p.ki * p.integral + p.kd * 0 + p.feedForward))
    hnaw'
  constructor
  · show (p.CalculateWithTrace reference state 0).2.1 = _
    rw [hstep]
    show p.clamp (p.kp * (reference - state) + p.ki * p.integral + p.kd * 0 + p.feedForward) =
      p.clamp (p.kp * (reference - state) + p.ki * p.integral + p.feedForward)
    ring_nf
  · show (p.CalculateWithTrace reference state 0).2.2.integral = _
    rw [hstep]
    show ({ p.antiWindupStep _ _ _ _ with lastError := reference - state } : PID σ).integral =
      p.integral
    rw [hawp]

/-- C1 witness: the amended statement on the concrete initialized state
`pW1` (stored integral `1/2`, cap `1`) at a `dt = 0` call. -/
theorem C1_witness :
    (pW1.Calculate 1 0 0).1 =
      pW1.clamp (pW1.kp * (1 - 0) + pW1.ki * pW1.integral + pW1.feedForward) ∧
    (pW1.Calculate 1 0 0).2.integral = pW1.integral :=
  C1_amended pW1 1 0 rfl rfl (by simp [pW1])
    (by intro m hm; simp [pW1] at hm; subst hm
        exact abs_le.mpr ⟨by norm_num [pW1], by norm_num [pW1]⟩)
    (by
      intro h
      refine h.1 ?_
      simp only [PID.CalculateWithTrace, PID.initStep, PID.setpointStep,
        PID.antiWindupStep, PID.calcualteDerrivative, PID.calculateRawDerivative,
        PID.calculateIntegral, PID.clamp, stabilityGate, pW1]
      norm_num)

/-- The first-call block never touches the configuration fields. -/
theorem initStep_config {σ : Type} (p : PID σ) (r e : ℚ) :
    (p.initStep r e).ki = p.ki ∧ (p.initStep r e).integralSumMax = p.integralSumMax ∧
    (p.initStep r e).outputMin = p.outputMin ∧ (p.initStep r e).outputMax = p.outputMax := by
  unfold PID.initStep
  split <;> exact ⟨rfl, rfl, rfl, rfl⟩

/-- The setpoint-change block never touches the configuration fields. -/
theorem setpointStep_config {σ : Type} (p : PID σ) (r : ℚ) :
    (p.setpointStep r).ki = p.ki ∧ (p.setpointStep r).integralSumMax = p.integralSumMax ∧
    (p.setpointStep r).outputMin = p.outputMin ∧ (p.setpointStep r).outputMax = p.outputMax := by
  unfold PID.setpointStep
  split <;> exact ⟨rfl, rfl, rfl, rfl⟩

/-- `calculateIntegral` only mutates the integral and the filter state,
never the configuration fields. -/
theorem calculateIntegral_config {σ : Type} (p : PID σ) (e dt : ℚ) :
    (p.calculateIntegral e dt).2.ki = p.ki ∧
    (p.calculateIntegral e dt).2.integralSumMax = p.integralSumMax ∧
    (p.calculateIntegral e dt).2.outputMin = p.outputMin ∧
    (p.calculateIntegral e dt).2.outputMax = p.outputMax ∧
    (p.calculateIntegral e dt).2.feedForward = p.feedForward := by
  unfold PID.calculateIntegral PID.calculateRawDerivative
  repeat' (first | split | dsimp only [])
  all_goals exact ⟨rfl, rfl, rfl, rfl, rfl⟩

/-- The anti-windup block only mutates the integral. -/
theorem antiWindupStep_config {σ : Type} (p : PID σ) (pr d out cl : ℚ) :
    (p.antiWindupStep pr d out cl).ki = p.ki ∧
    (p.antiWindupStep pr d out cl).integralSumMax = p.integralSumMax ∧
    (p.antiWindupStep pr d out cl).outputMin = p.outputMin ∧
    (p.antiWindupStep pr d out cl).outputMax = p.outputMax := by
  unfold PID.antiWindupStep
  split <;> exact ⟨rfl, rfl, rfl, rfl⟩

/-- Whenever the cap is set and the stored integral respects it on entry,
`calculateIntegral` keeps the stored integral within the cap (whichever of
the zero-cross, gate, and cap branches run). -/
theorem calculateIntegral_capped {σ : Type} (p : PID σ) (e dt m : ℚ)
    (hmax : p.integralSumMax = some m) (hpre : |p.integral| ≤ m) :
    |(p.calculateIntegral e dt).2.integral| ≤ m := by
  have hm0 : 0 ≤ m := (abs_nonneg _).trans hpre
  obtain ⟨kp, ki, kd, ff, zc, st, ismax, omin, omax, filt, fs, intg, lref, lerr, init⟩ := p
  simp only at hmax hpre
  subst hmax
  unfold PID.calculateIntegral PID.calculateRawDerivative
  repeat' (first | split | dsimp only [])
  all_goals
    first
      | exact hpre
      | simpa using hm0
      | (rw [abs_of_nonneg hm0]; try exact le_rfl)
      | (rw [abs_neg, abs_of_nonneg hm0]; try exact le_rfl)
      | exact abs_le.mpr ⟨le_of_not_lt (by assumption), le_of_not_lt (by assumption)⟩

/-- C2 amended: whenever `integral_sum_max` is set and the stored integral
respects it before the call, any `Calculate` call in which the anti-windup
back-solve does not fire leaves `|integral| ≤ integral_sum_max`.  (When the
back-solve fires — output clipped and `ki ≠ 0` — it can rewrite the integral
past the cap: see the counterexample.) -/
theorem C2_amended {σ : Type} (p : PID σ) (reference state dt m : ℚ)
    (hmax : p.integralSumMax = some m)
    (hpre : |p.integral| ≤ m)
    (hnaw : ¬ p.antiWindupFires reference state dt) :
    |(p.Calculate reference state dt).2.integral| ≤ m := by
  show |(p.CalculateWithTrace reference state dt).2.2.integral| ≤ m
  unfold PID.antiWindupFires at hnaw
  unfold PID.CalculateWithTrace at hnaw ⊢
  dsimp only [] at hnaw ⊢
  set p1 := (p.initStep reference (reference - state)).setpointStep reference with hp1
  set dres := p1.calcualteDerrivative (reference - state) dt with hdres
  set p2 : PID σ := { p1 with filterState := dres.2 } with hp2
  set ires := p2.calculateIntegral (reference - state) dt with hires
  have hki : ires.2.ki = p.ki := by
    rw [hires, (calculateIntegral_config p2 (reference - state) dt).1, hp2]
    show p1.ki = p.ki
    rw [hp1, (setpointStep_config _ reference).1, (initStep_config p reference _).1]
  have hmax2 : p2.integralSumMax = some m := by
    rw [hp2]
    show p1.integralSumMax = some m
    rw [hp1, (setpointStep_config _ reference).2.1, (initStep_config p reference _).2.1, hmax]
  have hpre2 : |p2.integral| ≤ m := by
    have hm0 : 0 ≤ m := (abs_nonneg _).trans hpre
    rw [hp2]
    show |p1.integral| ≤ m
    rw [hp1]
    unfold PID.setpointStep PID.initStep
    repeat' (first | split | dsimp only [])
    all_goals first
      | exact hpre
      | simpa using hm0
  have hcond : (p1.kp * (reference - state) + ires.1 + dres.1 + ires.2.feedForward) =
      ires.2.clamp (p1.kp * (reference - state) + ires.1 + dres.1 + ires.2.feedForward) ∨
      ires.2.ki = 0 := by
    rcases not_and_or.mp hnaw with h | h
    · exact Or.inl (not_not.mp h)
    · exact Or.inr (by rw [hki]; exact not_not.mp h)
  rw [antiWindupStep_noop _ _ _ _ _ hcond]
  show |ires.2.integral| ≤ m
  rw [hires]
  exact calculateIntegral_capped p2 (reference - state) dt m hmax2 hpre2

/-- C2 witness: the amended statement on `pW1` (cap `1`, integral `1/2`,
no output limits so the anti-windup cannot fire) over a `dt = 1` tick. -/
theorem C2_witness : |(pW1.Calculate 1 0 1).2.integral| ≤ 1 :=
  C2_amended pW1 1 0 1 1 rfl
    (abs_le.mpr ⟨by norm_num [pW1], by norm_num [pW1]⟩)
    (by
      intro h
      refine h.1 ?_
      simp only [PID.CalculateWithTrace, PID.initStep, PID.setpointStep,
        PID.antiWindupStep, PID.calcualteDerrivative, PID.calculateRawDerivative,
        PID.calculateIntegral, PID.clamp, stabilityGate, pW1]
      norm_num)

/-- The anti-windup block never touches the filter state. -/
theorem antiWindupStep_filterState {σ : Type} (p : PID σ) (pr d out cl : ℚ) :
    (p.antiWindupStep pr d out cl).filterState = p.filterState := by
  unfold PID.antiWindupStep
  split <;> rfl

/-- With a filter attached and `dt > 0`, the raw derivative is the filtered
error change over `dt`, and the filter state advances by one `Estimate`
call. -/
theorem calculateRawDerivative_filter {σ : Type} (p : PID σ) (f : FilterM σ)
    (error dt : ℚ) (hf : p.filter = some f) (hdt : 0 < dt) :
    p.calculateRawDerivative error dt =
      ((f.Estimate p.filterState (error - p.lastError)).1 / dt,
       (f.Estimate p.filterState (error - p.lastError)).2) := by
  unfold PID.calculateRawDerivative
  rw [if_neg (not_le.mpr hdt)]
  dsimp only []
  rw [hf]

/-- With a filter attached and `dt > 0`, the derivative term is `kd` times
the filtered error change over `dt`. -/
theorem calcualteDerrivative_filter {σ : Type} (p : PID σ) (f : FilterM σ)
    (error dt : ℚ) (hf : p.filter = some f) (hdt : 0 < dt) :
    p.calcualteDerrivative error dt =
      (p.kd * ((f.Estimate p.filterState (error - p.lastError)).1 / dt),
       (f.Estimate p.filterState (error - p.lastError)).2) := by
  unfold PID.calcualteDerrivative
  rw [calculateRawDerivative_filter p f error dt hf hdt]

/-- With a filter attached and `dt > 0`, `calculateIntegral` advances the
filter state by exactly one further `Estimate` call (made on the same error
change for the stability-gate comparison). -/
theorem calculateIntegral_filterState {σ : Type} (p : PID σ) (f : FilterM σ)
    (error dt : ℚ) (hf : p.filter = some f) (hdt : 0 < dt) :
    (p.calculateIntegral error dt).2.filterState =
      (f.Estimate p.filterState (error - p.lastError)).2 := by
  unfold PID.calculateIntegral PID.calculateRawDerivative
  simp only [if_neg (not_le.mpr hdt), hf]
  repeat' (first | dsimp only [] | split)
  all_goals
    first
      | rfl
      | (rename_i f' hq
         rw [hf] at hq
         injection hq with hq
         rw [hq])
      | (rename_i hq
         rw [hf] at hq
         exact Option.noConfusion hq)

/-- C3 amended: on every `Calculate` call with a filter attached, after
initialization, with an unchanged setpoint and `dt > 0`,
`filter.Estimate` is invoked exactly twice, both times on
`raw_delta = error - last_error`: the `kd` derivative term uses the first
filtered result divided by `dt`, while the stability gate recomputes the raw
derivative through a second `Estimate` call on the once-advanced filter
state; the filter state therefore advances exactly twice per tick. -/
theorem C3_amended {σ : Type} (p : PID σ) (f : FilterM σ) (reference state dt : ℚ)
    (hf : p.filter = some f) (hin : p.initialized = true)
    (href : reference = p.lastReference) (hdt : 0 < dt) :
    (p.Calculate reference state dt).2.filterState =
      (f.Estimate (f.Estimate p.filterState (reference - state - p.lastError)).2
        (reference - state - p.lastError)).2 ∧
    (({ p with filterState := (f.Estimate p.filterState (reference - state - p.lastError)).2 } :
        PID σ).calculateRawDerivative (reference - state) dt).1 =
      (f.Estimate (f.Estimate p.filterState (reference - state - p.lastError)).2
        (reference - state - p.lastError)).1 / dt ∧
    (p.Calculate reference state dt).1 =
      (let p2 : PID σ :=
        { p with filterState := (f.Estimate p.filterState (reference - state - p.lastError)).2 }
       let ires := p2.calculateIntegral (reference - state) dt
       ires.2.clamp (p.kp * (reference - state) + ires.1 +
         p.kd * ((f.Estimate p.filterState (reference - state - p.lastError)).1 / dt) +
         p.feedForward)) := by
  have hD := calcualteDerrivative_filter p f (reference - state) dt hf hdt
  refine ⟨?_, ?_, ?_⟩
  · show (p.CalculateWithTrace reference state dt).2.2.filterState = _
    unfold PID.CalculateWithTrace
    dsimp only []
    rw [initStep_initialized p reference (reference - state) hin,
      setpointStep_same p reference href, hD]
    dsimp only []
    rw [antiWindupStep_filterState]
    exact calculateIntegral_filterState _ f (reference - state) dt hf hdt
  · exact congrArg Prod.fst
      (calculateRawDerivative_filter
        { p with filterState := (f.Estimate p.filterState (reference - state - p.lastError)).2 }
        f (reference - state) dt hf hdt)
  · show (p.CalculateWithTrace reference state dt).2.1 = _
    unfold PID.CalculateWithTrace
    dsimp only []
    rw [initStep_initialized p reference (reference - state) hin,
      setpointStep_same p reference href, hD]
    dsimp only []
    rw [(calculateIntegral_config
      { p with filterState := (f.Estimate p.filterState (reference - state - p.lastError)).2 }
      (reference - state) dt).2.2.2.2]

/-- C3 witness: the amended statement on `pW3` (counting filter attached,
counter `0`) over a `dt = 1` tick with error `1`. -/
theorem C3_witness :
    (pW3.Calculate 1 0 1).2.filterState =
      (countingFilter.Estimate
        (countingFilter.Estimate pW3.filterState (1 - 0 - pW3.lastError)).2
        (1 - 0 - pW3.lastError)).2 ∧
    (({ pW3 with filterState :=
          (countingFilter.Estimate pW3.filterState (1 - 0 - pW3.lastError)).2 } :
        PID ℕ).calculateRawDerivative (1 - 0) 1).1 =
      (countingFilter.Estimate
        (countingFilter.Estimate pW3.filterState (1 - 0 - pW3.lastError)).2
        (1 - 0 - pW3.lastError)).1 / 1 ∧
    (pW3.Calculate 1 0 1).1 =
      (let p2 : PID ℕ :=
        { pW3 with filterState :=
            (countingFilter.Estimate pW3.filterState (1 - 0 - pW3.lastError)).2 }
       let ires := p2.calculateIntegral (1 - 0) 1
       ires.2.clamp (pW3.kp * (1 - 0) + ires.1 +
         pW3.kd * ((countingFilter.Estimate pW3.filterState (1 - 0 - pW3.lastError)).1 / 1) +
         pW3.feedForward)) :=
  C3_amended pW3 countingFilter 1 0 1 rfl rfl rfl (by norm_num)

/-- Two controllers with the same limits agree on `limitsOrdered`. -/
theorem limitsOrdered_congr {σ : Type} {p q : PID σ} (hmin : q.outputMin = p.outputMin)
    (hmax : q.outputMax = p.outputMax) (h : limitsOrdered p) : limitsOrdered q := by
  unfold limitsOrdered at h ⊢
  rw [hmin, hmax]
  exact h

/-- Two controllers with the same limits agree on `withinLimits`. -/
theorem withinLimits_congr {σ : Type} {p q : PID σ} (hmin : q.outputMin = p.outputMin)
    (hmax : q.outputMax = p.outputMax) (v : ℚ) (h : withinLimits q v) :
    withinLimits p v := by
  unfold withinLimits at h ⊢
  rw [← hmin, ← hmax]
  exact h

/-- Under ordered limits, `clamp` always lands inside `[output_min,
output_max]`. -/
theorem clamp_within {σ : Type} (p : PID σ) (h : limitsOrdered p) (v : ℚ) :
    withinLimits p (p.clamp v) := by
  unfold limitsOrdered at h
  unfold withinLimits PID.clamp
  rcases hmin : p.outputMin with _ | mn <;> rcases hmax : p.outputMax with _ | mx <;>
    simp only [hmin, hmax] <;> try dsimp only []
  · simp
  · constructor
    · simp
    · intro b hb
      simp only [Option.mem_def, Option.some.injEq] at hb
      subst hb
      split
      · exact le_rfl
      · exact le_of_not_lt (by assumption)
  · constructor
    · intro b hb
      simp only [Option.mem_def, Option.some.injEq] at hb
      subst hb
      split
      · exact le_rfl
      · exact le_of_not_lt (by assumption)
    · simp
  · have hmm : mn ≤ mx := h mn (by rw [hmin]; rfl) mx (by rw [hmax]; rfl)
    constructor
    · intro b hb
      simp only [Option.mem_def, Option.some.injEq] at hb
      subst hb
      split
      · exact hmm
      · split
        · exact le_rfl
        · exact le_of_not_lt (by assumption)
    · intro b hb
      simp only [Option.mem_def, Option.some.injEq] at hb
      subst hb
      split
      · exact le_rfl
      · split
        · exact hmm
        · exact le_of_not_lt (by assumption)

/-- A `Calculate` call never changes the output limits. -/
theorem calculate_limits {σ : Type} (p : PID σ) (reference state dt : ℚ) :
    (p.Calculate reference state dt).2.outputMin = p.outputMin ∧
    (p.Calculate reference state dt).2.outputMax = p.outputMax := by
  constructor
  · show (p.CalculateWithTrace reference state dt).2.2.outputMin = p.outputMin
    unfold PID.CalculateWithTrace
    dsimp only []
    rw [(antiWindupStep_config _ _ _ _ _).2.2.1, (calculateIntegral_config _ _ _).2.2.1]
    dsimp only []
    rw [(setpointStep_config _ _).2.2.1, (initStep_config _ _ _).2.2.1]
  · show (p.CalculateWithTrace reference state dt).2.2.outputMax = p.outputMax
    unfold PID.CalculateWithTrace
    dsimp only []
    rw [(antiWindupStep_config _ _ _ _ _).2.2.2, (calculateIntegral_config _ _ _).2.2.2.1]
    dsimp only []
    rw [(setpointStep_config _ _).2.2.2, (initStep_config _ _ _).2.2.2]

/-- Under ordered limits, the value a `Calculate` call returns lies within
`[output_min, output_max]`. -/
theorem calculate_fst_within {σ : Type} (p : PID σ) (h : limitsOrdered p)
    (reference state dt : ℚ) :
    withinLimits p ((p.Calculate reference state dt).1) := by
  show withinLimits p ((p.CalculateWithTrace reference state dt).2.1)
  unfold PID.CalculateWithTrace
  dsimp only []
  set p1 := (p.initStep reference (reference - state)).setpointStep reference with hp1
  set dres := p1.calcualteDerrivative (reference - state) dt with hdres
  set p2 : PID σ := { p1 with filterState := dres.2 } with hp2
  set ires := p2.calculateIntegral (reference - state) dt with hires
  have hmin : ires.2.outputMin = p.outputMin := by
    rw [hires, (calculateIntegral_config p2 (reference - state) dt).2.2.1, hp2]
    show p1.outputMin = p.outputMin
    rw [hp1, (setpointStep_config _ _).2.2.1, (initStep_config _ _ _).2.2.1]
  have hmax : ires.2.outputMax = p.outputMax := by
    rw [hires, (calculateIntegral_config p2 (reference - state) dt).2.2.2.1, hp2]
    show p1.outputMax = p.outputMax
    rw [hp1, (setpointStep_config _ _).2.2.2, (initStep_config _ _ _).2.2.2]
  have hordI : limitsOrdered ires.2 := limitsOrdered_congr hmin hmax h
  exact withinLimits_congr hmin hmax _ (clamp_within ires.2 hordI _)

/-- The construction defaults carry the (vacuously ordered) infinite
limits, and every option preserves ordered limits. -/
theorem applyOpt_ordered {σ : Type} (p : PID σ) (o : POpt σ) (h : limitsOrdered p) :
    limitsOrdered (applyOpt p o) := by
  cases o with
  | withOutputLimits mn mx =>
      simp only [applyOpt]
      split
      · rename_i hle
        intro a ha b hb
        simp only [Option.mem_def, Option.some.injEq] at ha hb
        subst ha
        subst hb
        exact hle
      · exact h
  | withFeedForward v => exact h
  | withIntegralResetOnZeroCross => exact h
  | withStabilityThreshold t => exact h
  | withIntegralSumMax m => exact h
  | withFilter f s => exact h

/-- Folding any option list over a controller with ordered limits keeps the
limits ordered. -/
theorem foldl_opts_ordered {σ : Type} (opts : List (POpt σ)) (p : PID σ)
    (h : limitsOrdered p) : limitsOrdered (opts.foldl applyOpt p) := by
  induction opts generalizing p with
  | nil => exact h
  | cons o os ih => exact ih (applyOpt p o) (applyOpt_ordered p o h)

/-- `Reset` never changes the output limits, so it keeps them ordered. -/
theorem reset_ordered {σ : Type} (p : PID σ) (h : limitsOrdered p) :
    limitsOrdered p.Reset := by
  unfold PID.Reset
  dsimp only []
  split <;> exact h

/-- `SetOutputLimits` keeps the limits ordered: it rejects `min > max` and
otherwise installs an ordered pair. -/
theorem setOutputLimits_ordered {σ : Type} (p : PID σ) (mn mx : ℚ)
    (h : limitsOrdered p) : limitsOrdered (p.SetOutputLimits mn mx) := by
  unfold PID.SetOutputLimits
  split
  · exact h
  · rename_i hgt
    intro a ha b hb
    simp only [Option.mem_def, Option.some.injEq] at ha hb
    subst ha
    subst hb
    exact le_of_not_lt hgt

/-- Every reachable controller state has ordered output limits. -/
theorem reachable_limitsOrdered {σ : Type} [Inhabited σ] (p : PID σ)
    (hp : Reachable p) : limitsOrdered p := by
  induction hp with
  | new kp ki kd opts =>
      apply foldl_opts_ordered
      intro a ha
      simp at ha
  | calculateStep p reference state dt hp ih =>
      exact limitsOrdered_congr (calculate_limits p reference state dt).1
        (calculate_limits p reference state dt).2 ih
  | resetStep p hp ih => exact reset_ordered p ih
  | setGains p kp ki kd hp ih => exact ih
  | setFeedForward p v hp ih => exact ih
  | setIntegralResetOnZeroCross p b hp ih => exact ih
  | setStabilityThreshold p t hp ih => exact ih
  | setIntegralSumMax p m hp ih => exact ih
  | setFilter p f s hp ih => exact ih
  | setOutputLimits p mn mx hp ih => exact setOutputLimits_ordered p mn mx ih

/-- C4: in every reachable controller state, `output_min ≤ output_max` holds
(with `none` standing for the infinite defaults), and every value `Calculate`
returns from such a state lies within `[output_min, output_max]`. -/
theorem C4_outputBounds {σ : Type} [Inhabited σ] (p : PID σ) (hp : Reachable p) :
    limitsOrdered p ∧
    ∀ reference state dt : ℚ, withinLimits p ((p.Calculate reference state dt).1) := by
  have hord : limitsOrdered p := reachable_limitsOrdered p hp
  exact ⟨hord, fun reference state dt => calculate_fst_within p hord reference state dt⟩

/-- C4 witness: the reachable controller `pW4` (limits `[-1, 1]`, `kp = 2`)
has ordered limits and its `Calculate(1, 0)` output stays within them. -/
theorem C4_witness :
    limitsOrdered pW4 ∧ withinLimits pW4 ((pW4.Calculate 1 0 1).1) :=
  ⟨(C4_outputBounds pW4 (Reachable.new 2 0 0 [POpt.withOutputLimits (-1) 1])).1,
   (C4_outputBounds pW4 (Reachable.new 2 0 0 [POpt.withOutputLimits (-1) 1])).2 1 0 1⟩

/-- Evaluation of `pC1`'s initializing tick. -/
theorem pC1_step1 : pC1.Calculate 1 0 0 = (0, pL0) := by
  simp only [pC1, PID.New, List.foldl, PID.Calculate, PID.CalculateWithTrace,
    PID.initStep, PID.setpointStep, PID.antiWindupStep,
    PID.calcualteDerrivative, PID.calculateRawDerivative, PID.calculateIntegral,
    PID.clamp, stabilityGate]
  norm_num [pL0]

/-- Evaluation of `pC1`'s second tick (`dt = 1`, error `1`). -/
theorem pC1_step2 : pL0.Calculate 1 0 1 = (1, pL1) := by
  simp only [PID.Calculate, PID.CalculateWithTrace, PID.initStep, PID.setpointStep,
    PID.antiWindupStep, PID.calcualteDerrivative,
    PID.calculateRawDerivative, PID.calculateIntegral, PID.clamp, stabilityGate, pL0]
  norm_num [pL1, pL0]

/-- Evaluation of the `dt = 0` tick from the state with integral `1`. -/
theorem pC1_step3 : (pL1.Calculate 1 0 0).1 = 1 := by
  simp only [PID.Calculate, PID.CalculateWithTrace, PID.initStep, PID.setpointStep,
    PID.antiWindupStep, PID.calcualteDerrivative,
    PID.calculateRawDerivative, PID.calculateIntegral, PID.clamp, stabilityGate,
    pL1, pL0]
  norm_num

/-- C1 counterexample: after two ticks the pure-integral controller `pC1`
holds integral `1`; a further tick with `dt = 0` returns `1`
(`= ki*integral`), not `clamp(kp*error + feed_forward) = 0` as the claim
states. -/
theorem C1_counterexample :
    (pC1b.Calculate 1 0 0).1 = 1 ∧
    pC1b.clamp (pC1b.kp * (1 - 0) + pC1b.feedForward) = 0 ∧
    (1 : ℚ) ≠ 0 := by
  have hb : pC1b = pL1 := by
    unfold pC1b
    rw [pC1_step1]
    show (pL0.Calculate 1 0 1).2 = pL1
    rw [pC1_step2]
  rw [hb]
  refine ⟨pC1_step3, ?_, by norm_num⟩
  norm_num [PID.clamp, pL1, pL0]

/-- C2 counterexample: on `pC2` (cap `1`, limits `[-10, 10]`, feed-forward
`20`) a single `Calculate(0, 0)` call saturates the output and the
anti-windup back-solve stores integral `-10`, violating
`|integral| ≤ integral_sum_max = 1`. -/
theorem C2_counterexample :
    (pC2.Calculate 0 0 0).2.integralSumMax = some 1 ∧
    (pC2.Calculate 0 0 0).2.integral = -10 ∧
    ¬ |(pC2.Calculate 0 0 0).2.integral| ≤ 1 := by
  have hp : pC2 = pL2 := by
    norm_num [pC2, pL2, PID.New, applyOpt, List.foldl]
  have h : pC2.Calculate 0 0 0 = (10, { pL2 with integral := -10, initialized := true }) := by
    rw [hp]
    simp only [PID.Calculate, PID.CalculateWithTrace, PID.initStep, PID.setpointStep,
      PID.antiWindupStep, PID.calcualteDerrivative,
      PID.calculateRawDerivative, PID.calculateIntegral, PID.clamp, stabilityGate, pL2]
    norm_num
  rw [h]
  refine ⟨rfl, rfl, by norm_num⟩

/-- C3 counterexample: one `Calculate` tick with `dt = 1 > 0` on the
controller carrying the invocation-counting filter advances the filter
state from `0` to `2`: `filter.Estimate` is invoked twice per tick, not
once. -/
theorem C3_counterexample :
    pC3b.filterState = 0 ∧
    (pC3b.Calculate 1 0 1).2.filterState = 2 ∧
    (2 : ℕ) ≠ 1 := by
  have hp : pC3 = p3L0 := rfl
  have hstep1 : pC3.Calculate 1 0 0 = (1, p3L1) := by
    rw [hp]
    simp only [PID.Calculate, PID.CalculateWithTrace, PID.initStep, PID.setpointStep,
      PID.antiWindupStep, PID.calcualteDerrivative,
      PID.calculateRawDerivative, PID.calculateIntegral, PID.clamp, stabilityGate,
      p3L0, countingFilter]
    norm_num [p3L1, p3L0, countingFilter]
  have hb : pC3b = p3L1 := by
    unfold pC3b
    rw [hstep1]
  rw [hb]
  refine ⟨rfl, ?_, by norm_num⟩
  simp only [PID.Calculate, PID.CalculateWithTrace, PID.initStep, PID.setpointStep,
    PID.antiWindupStep, PID.calcualteDerrivative,
    PID.calculateRawDerivative, PID.calculateIntegral, PID.clamp, stabilityGate,
    p3L1, p3L0, countingFilter]
  norm_num

end Control
